import Mathlib

/-!
Shallow embedding of `menstrual_cycle_app.py` (FemmeFlow): the Q-learning
core (state encoder, reward calculator, Q-value table, policy engine,
learning update) and the two endpoint handlers the claims touch
(`generate_user_notification`, `process_notification_feedback`).

Python floats are modelled by `ℚ` (all constants in the program are exact
decimals), machine integers by `Int`, database tables by lists of rows in
insertion order (SQLAlchemy `add` appends, `.first()` returns the first
matching row), and the process-wide random generator by a stream of values
together with a draw counter: each call to `random.random()` /
`random.uniform` / `random.choice` consumes one position of the stream.
-/

namespace FemmeFlow

/-- The fixed six-action enumeration, in the order of
`MenstrualCycleEnvironment.actions`. -/
inductive Action where
  | stretch_prompt
  | mindfulness
  | magnesium_suggestion
  | nap_suggestion
  | healthy_snack
  | movement_break
deriving DecidableEq, Repr

/-- Translation of `self.actions = ["stretch_prompt", "mindfulness", "magnesium_suggestion",
"nap_suggestion", "healthy_snack", "movement_break"]`. -/
def actionsList : List Action :=
  [Action.stretch_prompt, Action.mindfulness, Action.magnesium_suggestion,
   Action.nap_suggestion, Action.healthy_snack, Action.movement_break]

/-- A row of the `cycle_data` table. -/
structure CycleRow where
  user_id : String
  timestamp : Nat
  cycle_phase : String
  sleep_score : Int
  mood_score : Int
  stress_level : Int
  pain_level : Int
  energy_level : Int
deriving DecidableEq, Repr

/-- A row of the `q_tables` table. -/
structure QRow where
  user_id : String
  state : String
  action : Action
  q_value : ℚ
deriving DecidableEq, Repr

/-- A row of the `q_table_history` table. -/
structure HistRow where
  user_id : String
  state : String
  action : Action
  q_value : ℚ
  action_taken : Int
  reward : ℚ
  next_day_energy : Option Int
  next_day_mood : Option Int
deriving DecidableEq, Repr

/-- A row of the `notifications` table. -/
structure NotifRow where
  id : Nat
  user_id : String
  message : String
  action : Action
  state : String
  action_taken : Int
  effectiveness : ℚ
deriving DecidableEq, Repr

/-- The database: the four tables the learning core touches, each as a list
of rows in insertion order. -/
structure DB where
  cycle_data : List CycleRow
  q_table : List QRow
  q_history : List HistRow
  notifications : List NotifRow
deriving DecidableEq, Repr

/-- The `NotificationFeedback` request body. -/
structure NotificationFeedback where
  notification_id : Nat
  action_taken : Int
  effectiveness : ℚ
  next_day_energy : Int
  next_day_mood : Int
deriving DecidableEq, Repr

/-- The dict built by `get_current_state` (before `json.dumps`), in key
insertion order. -/
structure StateDict where
  cycle_phase : String
  sleep_score : Int
  mood_score : Int
  stress_level : Int
  pain_level : Int
  time_of_day : String
  energy_level : Int
deriving DecidableEq, Repr

/-- The process-wide random generator: a stream `q` of real draws
(`random.random()`, `random.uniform`), a stream `n` of index draws
(`random.choice`), and the number `k` of draws consumed so far. -/
structure RState where
  q : Nat → ℚ
  n : Nat → Nat
  k : Nat

/-- Consume one real draw. -/
def drawQ (r : RState) : ℚ × RState :=
  (r.q r.k, { r with k := r.k + 1 })

/-- Consume one `random.choice` draw over a list of length `len`
(the drawn index taken modulo the length). -/
def drawIdx (r : RState) (len : Nat) : Nat × RState :=
  (r.n r.k % len, { r with k := r.k + 1 })

/-- Constructor defaults of `MenstrualCycleQLearningAgent.__init__`:
`alpha=0.1, gamma=0.9, epsilon=0.1`. -/
structure AgentCfg where
  alpha : ℚ
  gamma : ℚ
  epsilon : ℚ
deriving DecidableEq, Repr

/-- The agent as instantiated by both endpoints:
`MenstrualCycleQLearningAgent(user_id, db, env.actions)`, i.e. all three
hyperparameters left at their defaults. -/
def defaultAgentCfg : AgentCfg :=
  { alpha := 1/10, gamma := 9/10, epsilon := 1/10 }

/-- The row predicate of
`db.query(QTable).filter_by(user_id=.., state=.., action=..)`. -/
def qMatch (user state : String) (action : Action) (row : QRow) : Bool :=
  row.user_id = user ∧ row.state = state ∧ row.action = action

/-- Result of `.first()` on the filtered `QTable` query: first matching row in
insertion order. -/
def qLookup (db : DB) (user state : String) (action : Action) : Option QRow :=
  db.q_table.find? (qMatch user state action)

/-- Overwrite `q_value` of the first row matching the predicate
(`q_entry.q_value = new_q` on the ORM object returned by `.first()`). -/
def setFirstQ (p : QRow → Bool) (v : ℚ) : List QRow → List QRow
  | [] => []
  | row :: rest =>
    if p row then { row with q_value := v } :: rest
    else row :: setFirstQ p v rest

/-- Translation of `db.query(CycleData).filter_by(user_id=..).order_by(
CycleData.timestamp.desc()).first()`: the first row, in insertion order,
carrying the maximal timestamp among the user's rows. -/
def latestCycleData (db : DB) (user : String) : Option CycleRow :=
  (db.cycle_data.filter (fun row => row.user_id = user)).foldl
    (fun acc row =>
      match acc with
      | none => some row
      | some best => if best.timestamp < row.timestamp then some row else acc)
    none

/-- The time-of-day bucketing of `get_current_state`, from
`datetime.now().hour`. -/
def timeOfDayOfHour (h : Nat) : String :=
  if 5 ≤ h ∧ h < 12 then "morning"
  else if 12 ≤ h ∧ h < 17 then "afternoon"
  else if 17 ≤ h ∧ h < 22 then "evening"
  else "night"

/-- Serialization (`json.dumps`) of the state dict: keys in insertion order, default
separators. -/
def dumpsState (s : StateDict) : String :=
  "\x7b\"cycle_phase\": \"" ++ s.cycle_phase ++
  "\", \"sleep_score\": " ++ toString s.sleep_score ++
  ", \"mood_score\": " ++ toString s.mood_score ++
  ", \"stress_level\": " ++ toString s.stress_level ++
  ", \"pain_level\": " ++ toString s.pain_level ++
  ", \"time_of_day\": \"" ++ s.time_of_day ++
  "\", \"energy_level\": " ++ toString s.energy_level ++ "\x7d"

/-- Translation of `MenstrualCycleEnvironment.get_current_state`, split at the
`json.dumps` step: the dict it builds (`None` when the user has no cycle
data). `hour` is the query-time wall-clock hour. -/
def get_current_state (user : String) (hour : Nat) (db : DB) :
    Option StateDict :=
  match latestCycleData db user with
  | none => none
  | some cd =>
    some { cycle_phase := cd.cycle_phase
           sleep_score := cd.sleep_score
           mood_score := cd.mood_score
           stress_level := cd.stress_level
           pain_level := cd.pain_level
           time_of_day := timeOfDayOfHour hour
           energy_level := cd.energy_level }

/-- Translation of `MenstrualCycleEnvironment.reward_function`. -/
def reward_function (user : String) (fb : NotificationFeedback) (db : DB) :
    ℚ :=
  if fb.action_taken = 0 then -1
  else
    let immediate_reward : ℚ := fb.effectiveness - 5
    let improvement_reward : ℚ :=
      match latestCycleData db user with
      | some prev =>
        (((fb.next_day_energy : ℚ) - (prev.energy_level : ℚ)) +
         ((fb.next_day_mood : ℚ) - (prev.mood_score : ℚ))) / 2
      | none => 0
    immediate_reward + improvement_reward

/-- Translation of `MenstrualCycleQLearningAgent.get_q_value`: read the stored value, or
lazily initialize an unseen (user, state, action) triple with one
`random.uniform(-0.1, 0.1)` draw, persisting it immediately. -/
def get_q_value (user : String) (state : String) (action : Action)
    (db : DB) (r : RState) : ℚ × DB × RState :=
  match qLookup db user state action with
  | some entry => (entry.q_value, db, r)
  | none =>
    let (new_q, r') := drawQ r
    (new_q,
     { db with q_table := db.q_table ++ [⟨user, state, action, new_q⟩] },
     r')

/-- The list comprehension
`[self.get_q_value(next_state, a) for a in self.actions]`: gets performed
left to right, threading the database and the generator. -/
def getQList (user state : String) :
    List Action → DB → RState → List ℚ × DB × RState
  | [], db, r => ([], db, r)
  | a :: rest, db, r =>
    let g := get_q_value user state a db r
    let t := getQList user state rest g.2.1 g.2.2
    (g.1 :: t.1, t.2)

/-- Python `max` over a nonempty list of rationals. -/
def pyMax : List ℚ → ℚ
  | [] => 0
  | x :: xs => xs.foldl max x

/-- Python `max(pairs, key=lambda x: x[1])`: the first pair attaining the
maximal second component (`max` keeps the current item on ties). -/
def pyMaxBySnd {α : Type} (x : α × ℚ) (xs : List (α × ℚ)) : α × ℚ :=
  xs.foldl (fun acc p => if acc.2 < p.2 then p else acc) x

/-- Translation of `MenstrualCycleQLearningAgent.update_q_value` (the `effectiveness`
parameter is received but never read by the Python function). -/
def update_q_value (user : String) (cfg : AgentCfg)
    (state : String) (action : Action) (reward : ℚ) (next_state : String)
    (action_taken : Int) (effectiveness : ℚ)
    (next_day_energy next_day_mood : Option Int)
    (db : DB) (r : RState) : DB × RState :=
  let g := get_q_value user state action db r
  let current_q := g.1
  let gl := getQList user next_state actionsList g.2.1 g.2.2
  let max_next_q := pyMax gl.1
  let new_q := current_q + cfg.alpha * (reward + cfg.gamma * max_next_q - current_q)
  let db2 := gl.2.1
  let db3 :=
    match qLookup db2 user state action with
    | some _ =>
      { db2 with q_table := setFirstQ (qMatch user state action) new_q db2.q_table }
    | none =>
      { db2 with q_table := db2.q_table ++ [(⟨user, state, action, new_q⟩ : QRow)] }
  let history_entry : HistRow :=
    { user_id := user, state := state, action := action, q_value := new_q
      action_taken := action_taken, reward := reward
      next_day_energy := next_day_energy, next_day_mood := next_day_mood }
  ({ db3 with q_history := db3.q_history ++ [history_entry] }, gl.2.2)

/-- The decision-time boost of the exploit branch of `choose_action`:
`+0.5` for the two pain-management actions, `0` otherwise. -/
def painBoost (a : Action) : ℚ :=
  if a = Action.magnesium_suggestion ∨ a = Action.stretch_prompt then 1/2
  else 0

/-- The exploit-branch loop of `choose_action` for the high-pain menstrual
state: get the Q-value of each action in enumeration order and boost the two
pain-management actions for this decision only. -/
def qValuesBoosted (user state : String) :
    List Action → DB → RState → List (Action × ℚ) × DB × RState
  | [], db, r => ([], db, r)
  | a :: rest, db, r =>
    let g := get_q_value user state a db r
    let q' := if a = Action.magnesium_suggestion ∨ a = Action.stretch_prompt
              then g.1 + 1/2 else g.1
    let t := qValuesBoosted user state rest g.2.1 g.2.2
    ((a, q') :: t.1, t.2)

/-- The exploit-branch list comprehension of `choose_action` for all other
states: unmodified Q-values. -/
def qValuesPlain (user state : String) :
    List Action → DB → RState → List (Action × ℚ) × DB × RState
  | [], db, r => ([], db, r)
  | a :: rest, db, r =>
    let g := get_q_value user state a db r
    let t := qValuesPlain user state rest g.2.1 g.2.2
    ((a, g.1) :: t.1, t.2)

/-- Translation of `MenstrualCycleQLearningAgent.choose_action` at default
`epsilon`-configurability: `sd` is the decoded state dict
(`json.loads(state)`), and the state key passed to the Q-table reads is its
serialization. -/
def choose_action (user : String) (cfg : AgentCfg) (sd : StateDict)
    (db : DB) (r : RState) : Action × DB × RState :=
  let state := dumpsState sd
  let d := drawQ r
  let r1 := d.2
  if d.1 < cfg.epsilon then
    if sd.cycle_phase = "menstrual" ∧ 6 ≤ sd.pain_level then
      let d2 := drawQ r1
      if d2.1 < 6/10 then
        let c := drawIdx d2.2 2
        (([Action.magnesium_suggestion, Action.stretch_prompt].getD c.1
            Action.magnesium_suggestion), db, c.2)
      else
        let c := drawIdx d2.2 actionsList.length
        (actionsList.getD c.1 Action.stretch_prompt, db, c.2)
    else
      let c := drawIdx r1 actionsList.length
      (actionsList.getD c.1 Action.stretch_prompt, db, c.2)
  else
    if sd.cycle_phase = "menstrual" ∧ 6 ≤ sd.pain_level then
      let t := qValuesBoosted user state actionsList db r1
      match t.1 with
      | p :: ps => ((pyMaxBySnd p ps).1, t.2)
      | [] => (Action.stretch_prompt, t.2)
    else
      let t := qValuesPlain user state actionsList db r1
      match t.1 with
      | p :: ps => ((pyMaxBySnd p ps).1, t.2)
      | [] => (Action.stretch_prompt, t.2)

/-- Translation of `get_stretch_type`. -/
def get_stretch_type (cycle_phase : String) : String :=
  if cycle_phase = "menstrual" then "hip-opening and gentle yoga"
  else if cycle_phase = "follicular" then "dynamic stretches and flow movements"
  else if cycle_phase = "ovulation" then "energetic and full-range stretches"
  else if cycle_phase = "luteal" then "calming and restorative stretches"
  else "comfortable stretches"

/-- Translation of `get_snack_suggestion`. -/
def get_snack_suggestion (cycle_phase : String) : String :=
  if cycle_phase = "menstrual" then "iron-rich foods and dark chocolate"
  else if cycle_phase = "follicular" then "light, nutrient-dense foods"
  else if cycle_phase = "ovulation" then "fresh fruits and vegetables"
  else if cycle_phase = "luteal" then "complex carbs and protein-rich foods"
  else "balanced, nutritious foods"

/-- Translation of `get_movement_type`. -/
def get_movement_type (cycle_phase : String) : String :=
  if cycle_phase = "menstrual" then "gentle walking or stretching"
  else if cycle_phase = "follicular" then "moderate cardio or strength training"
  else if cycle_phase = "ovulation" then "high-intensity activities or dance"
  else if cycle_phase = "luteal" then "yoga or light cardio"
  else "movement that feels good"

/-- The `messages` dict of `generate_notification`, looked up at the chosen
action (every action has an entry, so the `.get` default list is dead). -/
def messagesFor (action : Action) (cycle_phase : String) : List String :=
  match action with
  | Action.stretch_prompt =>
    ["Time for some gentle stretching! During " ++ cycle_phase ++
       " phase, focus on " ++ get_stretch_type cycle_phase,
     "Your body could use some movement. Try these " ++ cycle_phase ++
       "-friendly stretches",
     "Quick stretch break! Listen to your body and move gently"]
  | Action.mindfulness =>
    ["Take a moment to check in with yourself. During " ++ cycle_phase ++
       ", practice deep breathing",
     "Time for a mindful moment. Close your eyes and breathe deeply",
     "Pause for peace. A short meditation can help balance your energy"]
  | Action.magnesium_suggestion =>
    ["During " ++ cycle_phase ++
       ", magnesium can help with comfort. Consider taking a supplement",
     "Magnesium-rich foods like dark chocolate or nuts could help with symptoms",
     "Remember your magnesium supplement to support your body\x27s needs"]
  | Action.nap_suggestion =>
    ["Your energy seems low. A short nap could help during " ++ cycle_phase ++
       " phase",
     "Listen to your body - a 20-minute power nap might be just what you need",
     "Rest is important! Consider a short nap to recharge"]
  | Action.healthy_snack =>
    ["Time for a " ++ cycle_phase ++ "-supporting snack! Focus on " ++
       get_snack_suggestion cycle_phase,
     "Nourish your body with a balanced snack",
     "Hungry? Choose a nutrient-rich snack to support your energy"]
  | Action.movement_break =>
    ["Time to move! During " ++ cycle_phase ++ ", try " ++
       get_movement_type cycle_phase,
     "A short walk or gentle movement can help with energy and mood",
     "Your body needs movement - choose an activity that feels good"]

/-- Translation of `generate_notification`: pick one templated message at random and append
the pain- and energy-specific caveats. `sd` is the decoded state
(`json.loads(state_str)`). -/
def generate_notification (action : Action) (sd : StateDict) (r : RState) :
    String × RState :=
  let message_list := messagesFor action sd.cycle_phase
  let c := drawIdx r message_list.length
  let selected0 := message_list.getD c.1 "Time to take care of yourself!"
  let selected1 :=
    if 7 ≤ sd.pain_level ∧ sd.cycle_phase = "menstrual" then
      selected0 ++
        "\nRemember to be gentle with yourself and listen to your body\x27s needs."
    else selected0
  let selected2 :=
    if sd.energy_level ≤ 3 then
      selected1 ++ "\nKeep it gentle and rest if needed."
    else selected1
  (selected2, c.2)

/-- SQLite autoincrement for the `notifications` table: one more than the
largest existing row id. -/
def nextNotifId (db : DB) : Nat :=
  db.notifications.foldl (fun m n => max m n.id) 0 + 1

/-- The `NotificationResponse` body returned by the generate endpoint. -/
structure NotificationResponse where
  notification_id : Nat
  user_id : String
  message : String
  action : Action
deriving DecidableEq, Repr

/-- Handler of the generate endpoint
(`generate_user_notification`): 404 with detail
`"No cycle data found for user"` when the encoder yields no state;
otherwise choose an action, render a message, and persist a new
`Notification` row. -/
def generate_user_notification (user : String) (hour : Nat)
    (db : DB) (r : RState) :
    Except String NotificationResponse × DB × RState :=
  match get_current_state user hour db with
  | none => (Except.error "No cycle data found for user", db, r)
  | some sd =>
    let ca := choose_action user defaultAgentCfg sd db r
    let action := ca.1
    let gm := generate_notification action sd ca.2.2
    let message := gm.1
    let nid := nextNotifId ca.2.1
    let db2 :=
      { ca.2.1 with notifications := ca.2.1.notifications ++
          [(⟨nid, user, message, action, dumpsState sd, 0, 0⟩ : NotifRow)] }
    (Except.ok ⟨nid, user, message, action⟩, db2, gm.2)

/-- The row predicate of `db.query(Notification).filter_by(id=..)`. -/
def notifMatch (nid : Nat) (n : NotifRow) : Bool :=
  n.id = nid

/-- Overwrite `action_taken` and `effectiveness` of the first notification
row matching the id (the ORM-object mutation after `.first()`). -/
def setNotifFeedback (nid : Nat) (action_taken : Int) (effectiveness : ℚ) :
    List NotifRow → List NotifRow
  | [] => []
  | n :: rest =>
    if notifMatch nid n then
      { n with action_taken := action_taken, effectiveness := effectiveness } :: rest
    else n :: setNotifFeedback nid action_taken effectiveness rest

/-- Handler of the feedback endpoint (`process_notification_feedback`):
404 with detail `"Notification not found"` for an unknown id; otherwise
record the feedback on the notification, compute the reward, and run the
learning update with the current state (or the stored notification state
when no new state is available) as next state. -/
def process_notification_feedback (fb : NotificationFeedback) (hour : Nat)
    (db : DB) (r : RState) : Except String ℚ × DB × RState :=
  match db.notifications.find? (notifMatch fb.notification_id) with
  | none => (Except.error "Notification not found", db, r)
  | some n =>
    let db1 :=
      { db with notifications :=
          (setNotifFeedback fb.notification_id fb.action_taken fb.effectiveness
            db.notifications) }
    let reward := reward_function n.user_id fb db1
    let next_state :=
      match get_current_state n.user_id hour db1 with
      | some sd => dumpsState sd
      | none => n.state
    let upd :=
      update_q_value n.user_id defaultAgentCfg n.state n.action reward
        next_state fb.action_taken fb.effectiveness
        (some fb.next_day_energy) (some fb.next_day_mood) db1 r
    (Except.ok reward, upd)

/-! ### Concrete fixtures used to exercise the theorems on closed inputs -/

/-- A deterministic generator stream: real draws all `1/2`, index draws
all `0`, no draws consumed yet. -/
def rngHalf : RState :=
  { q := fun _ => 1/2, n := fun _ => 0, k := 0 }

/-- A generator whose next real draw is `0` (inside `[-0.1, 0.1]`). -/
def rngZero : RState :=
  { q := fun _ => 0, n := fun _ => 0, k := 0 }

/-- An empty database. -/
def dbEmpty : DB :=
  { cycle_data := [], q_table := [], q_history := [], notifications := [] }

/-- The previous Observation of the feedback round-trip scenario:
energy 4, mood 5. -/
def prevRowC3 : CycleRow :=
  { user_id := "u1", timestamp := 1, cycle_phase := "menstrual"
    sleep_score := 6, mood_score := 5, stress_level := 7
    pain_level := 8, energy_level := 4 }

/-- A database holding only that Observation. -/
def dbC3 : DB :=
  { cycle_data := [prevRowC3], q_table := [], q_history := []
    notifications := [] }

/-- The feedback of the round-trip scenario: actionTaken=1,
effectiveness=8, nextDayEnergy=7, nextDayMood=7. -/
def fbC3 : NotificationFeedback :=
  { notification_id := 1, action_taken := 1, effectiveness := 8
    next_day_energy := 7, next_day_mood := 7 }

/-- A feedback with actionTaken=0 (other fields arbitrary). -/
def fbC4 : NotificationFeedback :=
  { notification_id := 1, action_taken := 0, effectiveness := 9
    next_day_energy := 10, next_day_mood := 10 }

/-- The decoded state of the end-to-end scenario: menstrual phase, sleep 6,
mood 5, stress 7, pain 8, energy 4, morning. -/
def sdC5 : StateDict :=
  { cycle_phase := "menstrual", sleep_score := 6, mood_score := 5
    stress_level := 7, pain_level := 8, time_of_day := "morning"
    energy_level := 4 }

/-- Agent configuration with `epsilon = 0` (no exploration), other
hyperparameters at their defaults. -/
def cfgEps0 : AgentCfg :=
  { alpha := 1/10, gamma := 9/10, epsilon := 0 }

/-- Q-table pre-seeded for the end-to-end scenario: magnesium 0.9,
stretch 0.85, all other actions 0.1, keyed by the serialization of
`sdC5`. -/
def dbC5 : DB :=
  { cycle_data := []
    q_table :=
      [⟨"u1", dumpsState sdC5, Action.stretch_prompt, 85/100⟩,
       ⟨"u1", dumpsState sdC5, Action.mindfulness, 1/10⟩,
       ⟨"u1", dumpsState sdC5, Action.magnesium_suggestion, 9/10⟩,
       ⟨"u1", dumpsState sdC5, Action.nap_suggestion, 1/10⟩,
       ⟨"u1", dumpsState sdC5, Action.healthy_snack, 1/10⟩,
       ⟨"u1", dumpsState sdC5, Action.movement_break, 1/10⟩]
    q_history := [], notifications := [] }

/-- One decoded Observation tuple. -/
def sdC6a : StateDict :=
  { cycle_phase := "luteal", sleep_score := 7, mood_score := 6
    stress_level := 3, pain_level := 2, time_of_day := "evening"
    energy_level := 8 }

/-- A second Observation tuple with field-for-field the same values,
built independently. -/
def sdC6b : StateDict :=
  { cycle_phase := "luteal", sleep_score := 7, mood_score := 6
    stress_level := 3, pain_level := 2, time_of_day := "evening"
    energy_level := 8 }

/-- A stored notification awaiting (possibly repeated) feedback. -/
def notifC10 : NotifRow :=
  { id := 1, user_id := "u1", message := "m", action := Action.mindfulness
    state := dumpsState sdC5, action_taken := 1, effectiveness := 7 }

/-- A database holding that notification (it already carries feedback). -/
def dbC10 : DB :=
  { cycle_data := [], q_table := [], q_history := []
    notifications := [notifC10] }

/-! ### Helper lemmas -/

theorem find?_append_some {α : Type} {p : α → Bool} {l1 : List α} (l2 : List α)
    {x : α} (h : l1.find? p = some x) : (l1 ++ l2).find? p = some x := by
  induction l1 with
  | nil => simp [List.find?] at h
  | cons y ys ih =>
    rw [List.cons_append, List.find?]
    rw [List.find?] at h
    cases hy : p y with
    | true => simpa [hy] using h
    | false =>
      simp only [hy] at h ⊢
      exact ih h

theorem find?_append_none {α : Type} {p : α → Bool} {l1 : List α} (l2 : List α)
    (h : l1.find? p = none) : (l1 ++ l2).find? p = l2.find? p := by
  induction l1 with
  | nil => simp
  | cons y ys ih =>
    rw [List.cons_append, List.find?]
    rw [List.find?] at h
    cases hy : p y with
    | true => simp [hy] at h
    | false =>
      simp only [hy] at h ⊢
      exact ih h

theorem find?_isSome_append {α : Type} {p : α → Bool} {l1 : List α}
    (l2 : List α) (h : (l1.find? p).isSome) : ((l1 ++ l2).find? p).isSome := by
  obtain ⟨x, hx⟩ := Option.isSome_iff_exists.mp h
  rw [find?_append_some l2 hx]
  rfl

theorem qMatch_update_q (u s : String) (a : Action) (e : QRow) (v : ℚ) :
    qMatch u s a { e with q_value := v } = qMatch u s a e := rfl

theorem qMatch_eq_true {u s : String} {a : Action} {e : QRow}
    (h : qMatch u s a e = true) :
    e.user_id = u ∧ e.state = s ∧ e.action = a := by
  simpa [qMatch] using h

theorem qMatch_self (u s : String) (a : Action) (v : ℚ) :
    qMatch u s a ⟨u, s, a, v⟩ = true := by
  simp [qMatch]

theorem mem_actionsList (a : Action) : a ∈ actionsList := by
  cases a <;> simp [actionsList]

theorem get_q_value_of_some {db : DB} {u s : String} {a : Action} {e : QRow}
    (h : qLookup db u s a = some e) (r : RState) :
    get_q_value u s a db r = (e.q_value, db, r) := by
  simp [get_q_value, h]

theorem get_q_value_of_none {db : DB} {u s : String} {a : Action}
    (h : qLookup db u s a = none) (r : RState) :
    get_q_value u s a db r =
      (r.q r.k,
       { db with q_table := db.q_table ++ [⟨u, s, a, r.q r.k⟩] },
       { r with k := r.k + 1 }) := by
  simp [get_q_value, h, drawQ]

/-- After a `get_q_value`, the looked-up triple is present, holding
exactly the returned value. -/
theorem get_q_value_lookup_self (u s : String) (a : Action) (db : DB)
    (r : RState) :
    qLookup (get_q_value u s a db r).2.1 u s a =
      some ⟨u, s, a, (get_q_value u s a db r).1⟩ := by
  cases h : qLookup db u s a with
  | some e =>
    rw [get_q_value_of_some h]
    obtain ⟨h1, h2, h3⟩ := qMatch_eq_true (List.find?_some h)
    rw [h]
    cases e
    simp_all
  | none =>
    rw [get_q_value_of_none h]
    simp only [qLookup] at h ⊢
    rw [find?_append_none _ h]
    simp [List.find?, qMatch_self]

/-- A `get_q_value` call leaves every table but the Q-table unchanged, and only
appends to the Q-table. -/
theorem get_q_value_tables (u s : String) (a : Action) (db : DB)
    (r : RState) :
    (get_q_value u s a db r).2.1.cycle_data = db.cycle_data ∧
    (get_q_value u s a db r).2.1.q_history = db.q_history ∧
    (get_q_value u s a db r).2.1.notifications = db.notifications ∧
    ∃ ext, (get_q_value u s a db r).2.1.q_table = db.q_table ++ ext := by
  cases h : qLookup db u s a with
  | some e => rw [get_q_value_of_some h]; exact ⟨rfl, rfl, rfl, [], by simp⟩
  | none => rw [get_q_value_of_none h]; exact ⟨rfl, rfl, rfl, _, rfl⟩

/-- An existing first match survives any pure append to the Q-table. -/
theorem qLookup_extend {db db' : DB} {u s : String} {a : Action} {e : QRow}
    (h : qLookup db u s a = some e)
    (hext : ∃ ext, db'.q_table = db.q_table ++ ext) :
    qLookup db' u s a = some e := by
  obtain ⟨ext, hext⟩ := hext
  simp only [qLookup] at h ⊢
  rw [hext]
  exact find?_append_some _ h

/-- A `getQList` call leaves every table but the Q-table unchanged, and only
appends to the Q-table. -/
theorem getQList_tables (u s : String) (as : List Action) (db : DB)
    (r : RState) :
    (getQList u s as db r).2.1.cycle_data = db.cycle_data ∧
    (getQList u s as db r).2.1.q_history = db.q_history ∧
    (getQList u s as db r).2.1.notifications = db.notifications ∧
    ∃ ext, (getQList u s as db r).2.1.q_table = db.q_table ++ ext := by
  induction as generalizing db r with
  | nil => exact ⟨rfl, rfl, rfl, [], by simp [getQList]⟩
  | cons a rest ih =>
    obtain ⟨g1, g2, g3, ext1, hext1⟩ := get_q_value_tables u s a db r
    obtain ⟨i1, i2, i3, ext2, hext2⟩ :=
      ih (get_q_value u s a db r).2.1 (get_q_value u s a db r).2.2
    refine ⟨?_, ?_, ?_, ext1 ++ ext2, ?_⟩ <;>
      simp [getQList, i1, i2, i3, g1, g2, g3, hext2, hext1]

/-- After `getQList` over a list of actions, every one of those actions
has a stored entry at the queried state. -/
theorem getQList_isSome (u s : String) (as : List Action) (db : DB)
    (r : RState) :
    ∀ a ∈ as, (qLookup (getQList u s as db r).2.1 u s a).isSome := by
  induction as generalizing db r with
  | nil => intro a ha; simp at ha
  | cons b rest ih =>
    intro a ha
    rcases List.mem_cons.mp ha with rfl | ha
    · have hself := get_q_value_lookup_self u s a db r
      obtain ⟨-, -, -, hext⟩ :=
        getQList_tables u s rest (get_q_value u s a db r).2.1
          (get_q_value u s a db r).2.2
      have := qLookup_extend hself hext
      simp [getQList, this]
    · have := ih (get_q_value u s b db r).2.1 (get_q_value u s b db r).2.2 a ha
      simp [getQList, this]

/-- Overwriting the first match's value and then reading the first match
returns the overwritten value. -/
theorem find?_setFirstQ_self (u s : String) (a : Action) (v : ℚ)
    (l : List QRow) :
    (setFirstQ (qMatch u s a) v l).find? (qMatch u s a) =
      (l.find? (qMatch u s a)).map (fun e => { e with q_value := v }) := by
  induction l with
  | nil => simp [setFirstQ]
  | cons e rest ih =>
    cases he : qMatch u s a e with
    | true =>
      rw [setFirstQ]
      simp only [he, if_true]
      rw [List.find?, List.find?]
      simp [qMatch_update_q, he]
    | false =>
      rw [setFirstQ]
      simp only [he, Bool.false_eq_true, if_false]
      rw [List.find?, List.find?]
      simp [he, ih]

/-- A `setFirstQ` call never changes which keys are present (it only rewrites one
row, rewriting `q_value`, and `qMatch` ignores `q_value`). -/
theorem find?_isSome_setFirstQ (p : QRow → Bool) (v : ℚ) (u s : String)
    (a : Action) (l : List QRow) :
    ((setFirstQ p v l).find? (qMatch u s a)).isSome =
      (l.find? (qMatch u s a)).isSome := by
  induction l with
  | nil => simp [setFirstQ]
  | cons e rest ih =>
    cases hp : p e with
    | true =>
      rw [setFirstQ]
      simp only [hp, if_true]
      rw [List.find?, List.find?]
      cases he : qMatch u s a e with
      | true => simp [qMatch_update_q, he]
      | false => simp [qMatch_update_q, he]
    | false =>
      rw [setFirstQ]
      simp only [hp, Bool.false_eq_true, if_false]
      rw [List.find?, List.find?]
      cases he : qMatch u s a e with
      | true => simp [he]
      | false => simp [he, ih]

/-- The stored value immediately after `update_q_value` is exactly
`Q(s,a) + α·(reward + γ·max_a' Q(s',a') − Q(s,a))`, where `Q(s,a)` is the
value `get_q_value` produced for the current pair and the `Q(s',a')` are
the values `getQList` produced for the six next-state reads. -/
theorem update_q_value_lookup (user : String) (cfg : AgentCfg)
    (s : String) (a : Action) (reward : ℚ) (s' : String)
    (action_taken : Int) (effectiveness : ℚ) (nde ndm : Option Int)
    (db : DB) (r : RState) :
    qLookup
        (update_q_value user cfg s a reward s' action_taken effectiveness
          nde ndm db r).1 user s a =
      some ⟨user, s, a,
        (get_q_value user s a db r).1 +
          cfg.alpha *
            (reward +
              cfg.gamma *
                pyMax (getQList user s' actionsList
                  (get_q_value user s a db r).2.1
                  (get_q_value user s a db r).2.2).1 -
              (get_q_value user s a db r).1)⟩ := by
  have hself := get_q_value_lookup_self user s a db r
  obtain ⟨-, -, -, hext⟩ :=
    getQList_tables user s' actionsList (get_q_value user s a db r).2.1
      (get_q_value user s a db r).2.2
  have h2 := qLookup_extend hself hext
  rw [update_q_value]
  simp only [h2]
  simp only [qLookup] at h2 ⊢
  rw [find?_setFirstQ_self, h2]
  rfl

/-- After `update_q_value`, every action has a stored entry at the next
state: the max computation lazily initialized every unseen triple and the
write-back deleted nothing. -/
theorem update_q_value_next_isSome (user : String) (cfg : AgentCfg)
    (s : String) (a : Action) (reward : ℚ) (s' : String)
    (action_taken : Int) (effectiveness : ℚ) (nde ndm : Option Int)
    (db : DB) (r : RState) :
    ∀ a' : Action,
      (qLookup
        (update_q_value user cfg s a reward s' action_taken effectiveness
          nde ndm db r).1 user s' a').isSome := by
  intro a'
  have hsome :=
    getQList_isSome user s' actionsList (get_q_value user s a db r).2.1
      (get_q_value user s a db r).2.2 a' (mem_actionsList a')
  rw [update_q_value]
  cases h : qLookup
      (getQList user s' actionsList (get_q_value user s a db r).2.1
        (get_q_value user s a db r).2.2).2.1 user s a with
  | some e =>
    simp only [h]
    simp only [qLookup] at hsome ⊢
    rw [find?_isSome_setFirstQ]
    exact hsome
  | none =>
    simp only [h]
    simp only [qLookup] at hsome ⊢
    exact find?_isSome_append _ hsome

/-- An `update_q_value` call leaves cycle data and notifications unchanged and
appends exactly one history row (the history grows by one). -/
theorem update_q_value_tables (user : String) (cfg : AgentCfg)
    (s : String) (a : Action) (reward : ℚ) (s' : String)
    (action_taken : Int) (effectiveness : ℚ) (nde ndm : Option Int)
    (db : DB) (r : RState) :
    (update_q_value user cfg s a reward s' action_taken effectiveness
        nde ndm db r).1.cycle_data = db.cycle_data ∧
    (update_q_value user cfg s a reward s' action_taken effectiveness
        nde ndm db r).1.notifications = db.notifications ∧
    (update_q_value user cfg s a reward s' action_taken effectiveness
        nde ndm db r).1.q_history.length = db.q_history.length + 1 := by
  obtain ⟨g1, g2, g3, -⟩ := get_q_value_tables user s a db r
  obtain ⟨i1, i2, i3, -⟩ :=
    getQList_tables user s' actionsList (get_q_value user s a db r).2.1
      (get_q_value user s a db r).2.2
  rw [update_q_value]
  cases h : qLookup
      (getQList user s' actionsList (get_q_value user s a db r).2.1
        (get_q_value user s a db r).2.2).2.1 user s a with
  | some e =>
    simp only [h]
    exact ⟨by simp [i1, g1], by simp [i3, g3], by simp [i2, g2]⟩
  | none =>
    simp only [h]
    exact ⟨by simp [i1, g1], by simp [i3, g3], by simp [i2, g2]⟩

/-- Python `max(pairs, key=...)` returns the first pair attaining the
maximal key: its key bounds every key, and every strictly earlier pair has
a strictly smaller key. -/
theorem pyMaxBySnd_argmax {α : Type} (d x : α × ℚ) (xs : List (α × ℚ)) :
    ∃ i, i < (x :: xs).length ∧
      (x :: xs).getD i d = pyMaxBySnd x xs ∧
      (∀ j, j < (x :: xs).length →
        ((x :: xs).getD j d).2 ≤ (pyMaxBySnd x xs).2) ∧
      (∀ j, j < i → ((x :: xs).getD j d).2 < (pyMaxBySnd x xs).2) := by
  induction xs generalizing x with
  | nil =>
    refine ⟨0, by simp, by simp [pyMaxBySnd], ?_, ?_⟩
    · intro j hj
      have hj0 : j = 0 := by simpa using hj
      subst hj0
      simp [pyMaxBySnd]
    · intro j hj
      omega
  | cons y ys ih =>
    have hstep : pyMaxBySnd x (y :: ys) =
        pyMaxBySnd (if x.2 < y.2 then y else x) ys := rfl
    by_cases hxy : x.2 < y.2
    · obtain ⟨i, hi, heq, hle, hlt⟩ := ih y
      have hres : pyMaxBySnd x (y :: ys) = pyMaxBySnd y ys := by
        rw [hstep, if_pos hxy]
      refine ⟨i + 1, ?_, ?_, ?_, ?_⟩
      · simp only [List.length_cons] at hi ⊢
        omega
      · rw [hres, List.getD_cons_succ]
        exact heq
      · intro j hj
        rw [hres]
        match j with
        | 0 =>
          have h0 := hle 0 (by simp)
          simp only [List.getD_cons_zero] at h0 ⊢
          exact le_trans (le_of_lt hxy) h0
        | k + 1 =>
          rw [List.getD_cons_succ]
          refine hle k ?_
          simp only [List.length_cons] at hj ⊢
          omega
      · intro j hj
        rw [hres]
        match j with
        | 0 =>
          have h0 := hle 0 (by simp)
          simp only [List.getD_cons_zero] at h0 ⊢
          exact lt_of_lt_of_le hxy h0
        | k + 1 =>
          rw [List.getD_cons_succ]
          exact hlt k (by omega)
    · obtain ⟨i, hi, heq, hle, hlt⟩ := ih x
      have hres : pyMaxBySnd x (y :: ys) = pyMaxBySnd x ys := by
        rw [hstep, if_neg hxy]
      have hyx : y.2 ≤ x.2 := le_of_not_lt hxy
      have hxle : x.2 ≤ (pyMaxBySnd x ys).2 := by
        have h0 := hle 0 (by simp)
        simpa using h0
      match i, hi, heq, hlt with
      | 0, hi, heq, hlt =>
        refine ⟨0, by simp, ?_, ?_, ?_⟩
        · rw [hres]
          simpa using heq
        · intro j hj
          rw [hres]
          match j with
          | 0 => simpa using hxle
          | 1 =>
            simp only [List.getD_cons_succ, List.getD_cons_zero]
            exact le_trans hyx hxle
          | k + 2 =>
            simp only [List.getD_cons_succ]
            refine hle (k + 1) ?_
            simp only [List.length_cons] at hj ⊢
            omega
        · intro j hj
          omega
      | k + 1, hi, heq, hlt =>
        have hx_lt : x.2 < (pyMaxBySnd x ys).2 := by
          have h0 := hlt 0 (by omega)
          simpa using h0
        refine ⟨k + 2, ?_, ?_, ?_, ?_⟩
        · simp only [List.length_cons] at hi ⊢
          omega
        · rw [hres]
          simp only [List.getD_cons_succ]
          simpa [List.getD_cons_succ] using heq
        · intro j hj
          rw [hres]
          match j with
          | 0 => simpa using hxle
          | 1 =>
            simp only [List.getD_cons_succ, List.getD_cons_zero]
            exact le_trans hyx hxle
          | m + 2 =>
            simp only [List.getD_cons_succ]
            refine hle (m + 1) ?_
            simp only [List.length_cons] at hj ⊢
            omega
        · intro j hj
          rw [hres]
          match j with
          | 0 => simpa using hx_lt
          | 1 =>
            simp only [List.getD_cons_succ, List.getD_cons_zero]
            exact lt_of_le_of_lt hyx hx_lt
          | m + 2 =>
            simp only [List.getD_cons_succ]
            have := hlt (m + 1) (by omega)
            simpa [List.getD_cons_succ] using this

theorem getQList_length (u s : String) (as : List Action) (db : DB)
    (r : RState) : (getQList u s as db r).1.length = as.length := by
  induction as generalizing db r with
  | nil => simp [getQList]
  | cons a rest ih => simp [getQList, ih]

/-- The exploit-branch loop for high-pain menstrual states pairs each
action, in enumeration order, with the value `get_q_value` produced for it
plus the pain-management boost, threading the same database and generator
as the raw reads. -/
theorem qValuesBoosted_spec (u s : String) (as : List Action) (db : DB)
    (r : RState) :
    (qValuesBoosted u s as db r).2 = (getQList u s as db r).2 ∧
    (qValuesBoosted u s as db r).1.length = as.length ∧
    ∀ i, i < as.length →
      (qValuesBoosted u s as db r).1.getD i (Action.stretch_prompt, 0) =
        (as.getD i Action.stretch_prompt,
         (getQList u s as db r).1.getD i 0 +
           painBoost (as.getD i Action.stretch_prompt)) := by
  induction as generalizing db r with
  | nil =>
    refine ⟨rfl, rfl, ?_⟩
    intro i hi
    simp at hi
  | cons a rest ih =>
    obtain ⟨ih1, ih2, ih3⟩ :=
      ih (get_q_value u s a db r).2.1 (get_q_value u s a db r).2.2
    refine ⟨by simp [qValuesBoosted, getQList, ih1],
            by simp [qValuesBoosted, ih2], ?_⟩
    intro i hi
    match i with
    | 0 =>
      by_cases hc : a = Action.magnesium_suggestion ∨ a = Action.stretch_prompt
      · simp [qValuesBoosted, getQList, painBoost, hc]
      · simp [qValuesBoosted, getQList, painBoost, hc]
    | k + 1 =>
      simp only [qValuesBoosted, getQList, List.getD_cons_succ]
      exact ih3 k (by simpa using hi)

/-- When the exploration draw does not fall below epsilon and the decoded
state is high-pain menstrual, `choose_action` returns the Python `max` of
the boosted (action, value) pairs built from the post-draw generator. -/
theorem choose_action_exploit_boosted (user : String) (cfg : AgentCfg)
    (sd : StateDict) (db : DB) (r : RState)
    (hexp : ¬ r.q r.k < cfg.epsilon)
    (hp : sd.cycle_phase = "menstrual") (hpain : 6 ≤ sd.pain_level) :
    ∃ p ps,
      (qValuesBoosted user (dumpsState sd) actionsList db
        { r with k := r.k + 1 }).1 = p :: ps ∧
      choose_action user cfg sd db r =
        ((pyMaxBySnd p ps).1,
         (qValuesBoosted user (dumpsState sd) actionsList db
           { r with k := r.k + 1 }).2) := by
  have hlen :
      (qValuesBoosted user (dumpsState sd) actionsList db
        { r with k := r.k + 1 }).1.length = actionsList.length :=
    (qValuesBoosted_spec user (dumpsState sd) actionsList db
      { r with k := r.k + 1 }).2.1
  cases hq : (qValuesBoosted user (dumpsState sd) actionsList db
      { r with k := r.k + 1 }).1 with
  | nil => rw [hq] at hlen; simp [actionsList] at hlen
  | cons p ps =>
    refine ⟨p, ps, rfl, ?_⟩
    rw [choose_action]
    simp only [drawQ]
    rw [if_neg hexp]
    rw [if_pos ⟨hp, hpain⟩]
    simp only [hq]

theorem notifMatch_update (nid : Nat) (n : NotifRow) (tk : Int) (ef : ℚ) :
    notifMatch nid { n with action_taken := tk, effectiveness := ef } =
      notifMatch nid n := rfl

/-- Recording feedback rewrites exactly the first notification row with
the referenced id, as later reads observe. -/
theorem find?_setNotifFeedback (nid : Nat) (tk : Int) (ef : ℚ)
    (l : List NotifRow) :
    (setNotifFeedback nid tk ef l).find? (notifMatch nid) =
      (l.find? (notifMatch nid)).map
        (fun n => { n with action_taken := tk, effectiveness := ef }) := by
  induction l with
  | nil => simp [setNotifFeedback]
  | cons n rest ih =>
    cases hn : notifMatch nid n with
    | true =>
      rw [setNotifFeedback]
      simp only [hn, if_true]
      rw [List.find?, List.find?]
      simp [notifMatch_update, hn]
    | false =>
      rw [setNotifFeedback]
      simp only [hn, Bool.false_eq_true, if_false]
      rw [List.find?, List.find?]
      simp [hn, ih]

theorem latestCycleData_congr {db1 db2 : DB}
    (h : db1.cycle_data = db2.cycle_data) (u : String) :
    latestCycleData db1 u = latestCycleData db2 u := by
  simp [latestCycleData, h]

/-- The reward computation reads only the cycle-data table. -/
theorem reward_function_congr {db1 db2 : DB}
    (h : db1.cycle_data = db2.cycle_data) (u : String)
    (fb : NotificationFeedback) :
    reward_function u fb db1 = reward_function u fb db2 := by
  simp only [reward_function, latestCycleData_congr h u]

/-- Straight unfolding of the feedback endpoint on a found notification:
record the feedback on the row, then run the learning update against the
updated database. -/
theorem process_feedback_of_some (fb : NotificationFeedback) (hour : Nat)
    (db : DB) (r : RState) (n : NotifRow)
    (h : db.notifications.find? (notifMatch fb.notification_id) = some n) :
    process_notification_feedback fb hour db r =
      (Except.ok (reward_function n.user_id fb
         { db with notifications :=
             (setNotifFeedback fb.notification_id fb.action_taken
               fb.effectiveness db.notifications) }),
       update_q_value n.user_id defaultAgentCfg n.state n.action
         (reward_function n.user_id fb
           { db with notifications :=
               (setNotifFeedback fb.notification_id fb.action_taken
                 fb.effectiveness db.notifications) })
         (match get_current_state n.user_id hour
             { db with notifications :=
                 (setNotifFeedback fb.notification_id fb.action_taken
                   fb.effectiveness db.notifications) } with
          | some sd => dumpsState sd
          | none => n.state)
         fb.action_taken fb.effectiveness
         (some fb.next_day_energy) (some fb.next_day_mood)
         { db with notifications :=
             (setNotifFeedback fb.notification_id fb.action_taken
               fb.effectiveness db.notifications) }
         r) := by
  rw [process_notification_feedback]
  simp only [h]

/-! ### Claim theorems -/

/-- C1: for every user, state key `s`, action `a`, reward and next-state
key `s'`, the learning update stores back into the Q-table exactly
`Q(s,a) + α·(reward + γ·max_a' Q(s',a') − Q(s,a))` — where `Q(s,a)` is the
(lazily initialized) value read for the current pair and the `Q(s',a')`
are the values read (lazily initializing any unseen triple) for all six
actions at the next state — every action of the fixed six-action set has a
stored entry at `s'` afterwards, and the per-agent defaults are α = 0.1
and γ = 0.9. -/
theorem c1_update_stores_td_formula (user : String) (cfg : AgentCfg)
    (s : String) (a : Action) (reward : ℚ) (s' : String)
    (action_taken : Int) (eff : ℚ) (nde ndm : Option Int)
    (db : DB) (r : RState) :
    qLookup
        (update_q_value user cfg s a reward s' action_taken eff
          nde ndm db r).1 user s a =
      some ⟨user, s, a,
        (get_q_value user s a db r).1 +
          cfg.alpha *
            (reward +
              cfg.gamma *
                pyMax (getQList user s' actionsList
                  (get_q_value user s a db r).2.1
                  (get_q_value user s a db r).2.2).1 -
              (get_q_value user s a db r).1)⟩ ∧
    (∀ a' : Action,
      (qLookup
        (update_q_value user cfg s a reward s' action_taken eff
          nde ndm db r).1 user s' a').isSome) ∧
    defaultAgentCfg.alpha = 1/10 ∧ defaultAgentCfg.gamma = 9/10 :=
  ⟨update_q_value_lookup user cfg s a reward s' action_taken eff nde ndm db r,
   update_q_value_next_isSome user cfg s a reward s' action_taken eff nde ndm
     db r,
   rfl, rfl⟩

/-- C2: the first `get` for an unseen (user, stateKey, action) triple
returns the generator's uniform draw — in `[-0.1, 0.1]` whenever the draw
is — persists it immediately, and any later `get` for the same triple
(whatever the generator then holds) returns exactly the same value. -/
theorem c2_lazy_init_stable (u s : String) (a : Action) (db : DB)
    (r : RState) (h : qLookup db u s a = none)
    (hr1 : -(1/10) ≤ r.q r.k) (hr2 : r.q r.k ≤ 1/10) :
    (-(1/10) ≤ (get_q_value u s a db r).1 ∧
      (get_q_value u s a db r).1 ≤ 1/10) ∧
    qLookup (get_q_value u s a db r).2.1 u s a =
      some ⟨u, s, a, (get_q_value u s a db r).1⟩ ∧
    ∀ r' : RState,
      (get_q_value u s a (get_q_value u s a db r).2.1 r').1 =
        (get_q_value u s a db r).1 := by
  have hv : (get_q_value u s a db r).1 = r.q r.k := by
    rw [get_q_value_of_none h]
  refine ⟨⟨by rw [hv]; exact hr1, by rw [hv]; exact hr2⟩,
          get_q_value_lookup_self u s a db r, ?_⟩
  intro r'
  simp [get_q_value_of_some (get_q_value_lookup_self u s a db r) r']

/-- Witness for C2 at a concrete unseen triple and a zero draw. -/
theorem c2_witness :
    qLookup dbEmpty "u1" "s" Action.mindfulness = none ∧
    (-(1/10) ≤ (get_q_value "u1" "s" Action.mindfulness dbEmpty rngZero).1 ∧
      (get_q_value "u1" "s" Action.mindfulness dbEmpty rngZero).1 ≤ 1/10) ∧
    qLookup (get_q_value "u1" "s" Action.mindfulness dbEmpty rngZero).2.1
        "u1" "s" Action.mindfulness =
      some ⟨"u1", "s", Action.mindfulness,
        (get_q_value "u1" "s" Action.mindfulness dbEmpty rngZero).1⟩ ∧
    (get_q_value "u1" "s" Action.mindfulness
        (get_q_value "u1" "s" Action.mindfulness dbEmpty rngZero).2.1
        rngHalf).1 =
      (get_q_value "u1" "s" Action.mindfulness dbEmpty rngZero).1 := by
  have h := c2_lazy_init_stable "u1" "s" Action.mindfulness dbEmpty rngZero
    rfl (by norm_num [rngZero]) (by norm_num [rngZero])
  exact ⟨rfl, h.1, h.2.1, h.2.2 rngHalf⟩

/-- C3: with the action taken, the reward is
`(effectiveness − 5) + ((Δenergy + Δmood) / 2)` against the user's most
recent stored Observation, and just `effectiveness − 5` when the user has
no Observation. -/
theorem c3_reward_action_taken (u : String) (fb : NotificationFeedback)
    (db : DB) (h : fb.action_taken = 1) :
    (∀ prev, latestCycleData db u = some prev →
      reward_function u fb db =
        (fb.effectiveness - 5) +
          (((fb.next_day_energy : ℚ) - (prev.energy_level : ℚ)) +
           ((fb.next_day_mood : ℚ) - (prev.mood_score : ℚ))) / 2) ∧
    (latestCycleData db u = none →
      reward_function u fb db = fb.effectiveness - 5) := by
  have hne : ¬ fb.action_taken = 0 := by rw [h]; decide
  constructor
  · intro prev hprev
    rw [reward_function, if_neg hne]
    simp [hprev]
  · intro hnone
    rw [reward_function, if_neg hne]
    simp [hnone]

/-- Witness for C3: effectiveness 8, next-day energy 7 and mood 7 against
a previous Observation with energy 4 and mood 5 yield reward 5.5. -/
theorem c3_witness :
    fbC3.action_taken = 1 ∧
    latestCycleData dbC3 "u1" = some prevRowC3 ∧
    reward_function "u1" fbC3 dbC3 =
      (fbC3.effectiveness - 5) +
        (((fbC3.next_day_energy : ℚ) - (prevRowC3.energy_level : ℚ)) +
         ((fbC3.next_day_mood : ℚ) - (prevRowC3.mood_score : ℚ))) / 2 ∧
    reward_function "u1" fbC3 dbC3 = 11/2 := by
  have h := (c3_reward_action_taken "u1" fbC3 dbC3 rfl).1 prevRowC3 rfl
  refine ⟨rfl, rfl, h, ?_⟩
  rw [h]
  norm_num [fbC3, prevRowC3]

/-- C4: with the action not taken, the reward is the fixed constant −1,
whatever the other feedback fields and whether or not the user has any
stored Observation. -/
theorem c4_reward_not_taken (u : String) (fb : NotificationFeedback)
    (db : DB) (h : fb.action_taken = 0) :
    reward_function u fb db = -1 := by
  rw [reward_function, if_pos h]

/-- Witness for C4: high ratings still yield −1, with and without a prior
Observation on record. -/
theorem c4_witness :
    fbC4.action_taken = 0 ∧
    reward_function "u1" fbC4 dbEmpty = -1 ∧
    reward_function "u1" fbC4 dbC3 = -1 :=
  ⟨rfl, c4_reward_not_taken "u1" fbC4 dbEmpty rfl,
   c4_reward_not_taken "u1" fbC4 dbC3 rfl⟩

/-- C6: the state encoder is deterministic in the seven encoded fields:
dicts with pairwise equal field values serialize to byte-identical State
Key strings, on every run. -/
theorem c6_state_key_deterministic (s1 s2 : StateDict)
    (h1 : s1.cycle_phase = s2.cycle_phase)
    (h2 : s1.sleep_score = s2.sleep_score)
    (h3 : s1.mood_score = s2.mood_score)
    (h4 : s1.stress_level = s2.stress_level)
    (h5 : s1.pain_level = s2.pain_level)
    (h6 : s1.time_of_day = s2.time_of_day)
    (h7 : s1.energy_level = s2.energy_level) :
    dumpsState s1 = dumpsState s2 := by
  cases s1
  cases s2
  simp only at h1 h2 h3 h4 h5 h6 h7
  subst h1 h2 h3 h4 h5 h6 h7
  rfl

/-- Witness for C6: two independently built dicts with the same fields
produce the same key. -/
theorem c6_witness : dumpsState sdC6a = dumpsState sdC6b :=
  c6_state_key_deterministic sdC6a sdC6b rfl rfl rfl rfl rfl rfl rfl

/-- C7: feedback referencing an unknown notification id returns the
"Notification not found" error and leaves the entire database (Q-table,
history, notifications, cycle data) and the generator untouched. -/
theorem c7_unknown_notification_rejected (fb : NotificationFeedback)
    (hour : Nat) (db : DB) (r : RState)
    (h : db.notifications.find? (notifMatch fb.notification_id) = none) :
    process_notification_feedback fb hour db r =
      (Except.error "Notification not found", db, r) := by
  rw [process_notification_feedback]
  simp only [h]

/-- Witness for C7 on an empty notification store. -/
theorem c7_witness :
    dbEmpty.notifications.find? (notifMatch fbC3.notification_id) = none ∧
    process_notification_feedback fbC3 9 dbEmpty rngHalf =
      (Except.error "Notification not found", dbEmpty, rngHalf) :=
  ⟨rfl, c7_unknown_notification_rejected fbC3 9 dbEmpty rngHalf rfl⟩

/-- C8: with no Observation on record the encoder signals "no state", and
the generate endpoint returns the "No cycle data found for user" error
without selecting an action or writing any notification — the database and
the generator are returned untouched. -/
theorem c8_no_observation_rejected (user : String) (hour : Nat) (db : DB)
    (r : RState) (h : latestCycleData db user = none) :
    get_current_state user hour db = none ∧
    generate_user_notification user hour db r =
      (Except.error "No cycle data found for user", db, r) := by
  have hs : get_current_state user hour db = none := by
    rw [get_current_state]
    simp only [h]
  refine ⟨hs, ?_⟩
  rw [generate_user_notification]
  simp only [hs]

/-- Witness for C8 on an empty cycle-data store. -/
theorem c8_witness :
    latestCycleData dbEmpty "u1" = none ∧
    get_current_state "u1" 9 dbEmpty = none ∧
    generate_user_notification "u1" 9 dbEmpty rngHalf =
      (Except.error "No cycle data found for user", dbEmpty, rngHalf) := by
  have h := c8_no_observation_rejected "u1" 9 dbEmpty rngHalf rfl
  exact ⟨rfl, h.1, h.2⟩

/-- C9: the time-of-day bucket is a function of the query-time wall-clock
hour — morning on [5,12), afternoon on [12,17), evening on [17,22), night
otherwise — and the encoder stamps exactly that bucket into the produced
state whatever Observation is stored. -/
theorem c9_time_bucket_query_time :
    (∀ h : Nat, 5 ≤ h → h < 12 → timeOfDayOfHour h = "morning") ∧
    (∀ h : Nat, 12 ≤ h → h < 17 → timeOfDayOfHour h = "afternoon") ∧
    (∀ h : Nat, 17 ≤ h → h < 22 → timeOfDayOfHour h = "evening") ∧
    (∀ h : Nat, h < 5 ∨ 22 ≤ h → timeOfDayOfHour h = "night") ∧
    (∀ (user : String) (h : Nat) (db : DB),
      (get_current_state user h db).map StateDict.time_of_day =
        (latestCycleData db user).map (fun _ => timeOfDayOfHour h)) := by
  refine ⟨?_, ?_, ?_, ?_, ?_⟩
  · intro h h1 h2
    rw [timeOfDayOfHour]
    split_ifs <;> first | rfl | omega
  · intro h h1 h2
    rw [timeOfDayOfHour]
    split_ifs <;> first | rfl | omega
  · intro h h1 h2
    rw [timeOfDayOfHour]
    split_ifs <;> first | rfl | omega
  · intro h h1
    rw [timeOfDayOfHour]
    split_ifs <;> first | rfl | omega
  · intro user h db
    rw [get_current_state]
    cases hl : latestCycleData db user <;> simp

/-- Witness for C9 at one hour in each bucket, on both bucket boundaries
of the night wrap-around. -/
theorem c9_witness :
    timeOfDayOfHour 9 = "morning" ∧
    timeOfDayOfHour 13 = "afternoon" ∧
    timeOfDayOfHour 20 = "evening" ∧
    timeOfDayOfHour 2 = "night" ∧
    timeOfDayOfHour 23 = "night" ∧
    (get_current_state "u1" 2 dbC3).map StateDict.time_of_day =
      (latestCycleData dbC3 "u1").map (fun _ => timeOfDayOfHour 2) :=
  ⟨c9_time_bucket_query_time.1 9 (by decide) (by decide),
   c9_time_bucket_query_time.2.1 13 (by decide) (by decide),
   c9_time_bucket_query_time.2.2.1 20 (by decide) (by decide),
   c9_time_bucket_query_time.2.2.2.1 2 (Or.inl (by decide)),
   c9_time_bucket_query_time.2.2.2.1 23 (Or.inr (by decide)),
   c9_time_bucket_query_time.2.2.2.2 "u1" 2 dbC3⟩

set_option maxRecDepth 8000 in
/-- C5: whenever the exploration draw is not below ε and the decoded state
is high-pain menstrual (phase "menstrual", pain ≥ 6), the exploit branch
returns the arg-max over the six actions of `Q(state, a) + b(a)`, where
`b` boosts only magnesium and stretch by 0.5 and the `Q` values are the
(lazily initialized) reads performed after the exploration draw; ties go
to the action occurring first in the enumeration. In the pre-seeded
scenario (ε = 0, magnesium 0.9, stretch 0.85, others 0.1) the selected
action is magnesium. -/
theorem c5_exploit_highpain_argmax :
    (∀ (user : String) (cfg : AgentCfg) (sd : StateDict) (db : DB)
        (r : RState),
      ¬ r.q r.k < cfg.epsilon →
      sd.cycle_phase = "menstrual" →
      6 ≤ sd.pain_level →
      ∃ i, i < actionsList.length ∧
        (choose_action user cfg sd db r).1 =
          actionsList.getD i Action.stretch_prompt ∧
        (∀ j, j < actionsList.length →
          (getQList user (dumpsState sd) actionsList db
              { r with k := r.k + 1 }).1.getD j 0 +
            painBoost (actionsList.getD j Action.stretch_prompt) ≤
          (getQList user (dumpsState sd) actionsList db
              { r with k := r.k + 1 }).1.getD i 0 +
            painBoost (actionsList.getD i Action.stretch_prompt)) ∧
        (∀ j, j < i →
          (getQList user (dumpsState sd) actionsList db
              { r with k := r.k + 1 }).1.getD j 0 +
            painBoost (actionsList.getD j Action.stretch_prompt) <
          (getQList user (dumpsState sd) actionsList db
              { r with k := r.k + 1 }).1.getD i 0 +
            painBoost (actionsList.getD i Action.stretch_prompt))) ∧
    (choose_action "u1" cfgEps0 sdC5 dbC5 rngHalf).1 =
      Action.magnesium_suggestion := by
  constructor
  · intro user cfg sd db r hexp hp hpain
    obtain ⟨p, ps, hq, hca⟩ :=
      choose_action_exploit_boosted user cfg sd db r hexp hp hpain
    obtain ⟨-, hBlen, hBget⟩ :=
      qValuesBoosted_spec user (dumpsState sd) actionsList db
        { r with k := r.k + 1 }
    obtain ⟨i, hi, heq, hle, hlt⟩ :=
      pyMaxBySnd_argmax (Action.stretch_prompt, (0 : ℚ)) p ps
    rw [hq] at hBlen hBget
    rw [hBlen] at hi
    have hval : ∀ j, j < actionsList.length →
        ((p :: ps).getD j (Action.stretch_prompt, 0)).2 =
          (getQList user (dumpsState sd) actionsList db
              { r with k := r.k + 1 }).1.getD j 0 +
            painBoost (actionsList.getD j Action.stretch_prompt) := by
      intro j hj
      rw [hBget j hj]
    refine ⟨i, hi, ?_, ?_, ?_⟩
    · rw [hca]
      have := congrArg Prod.fst heq
      rw [← this, hBget i hi]
    · intro j hj
      have h1 := hle j (by rw [hBlen]; exact hj)
      rw [hval j hj, ← heq, hval i hi] at h1
      exact h1
    · intro j hj
      have h1 := hlt j hj
      rw [hval j (by omega), ← heq, hval i hi] at h1
      exact h1
  · have hexp : ¬ rngHalf.q rngHalf.k < cfgEps0.epsilon := by
      norm_num [rngHalf, cfgEps0]
    obtain ⟨p, ps, hq, hca⟩ :=
      choose_action_exploit_boosted "u1" cfgEps0 sdC5 dbC5 rngHalf hexp rfl
        (by norm_num [sdC5])
    have hL : (qValuesBoosted "u1" (dumpsState sdC5) actionsList dbC5
        { rngHalf with k := rngHalf.k + 1 }).1 =
        [(Action.stretch_prompt, 85/100 + 1/2),
         (Action.mindfulness, 1/10),
         (Action.magnesium_suggestion, 9/10 + 1/2),
         (Action.nap_suggestion, 1/10),
         (Action.healthy_snack, 1/10),
         (Action.movement_break, 1/10)] := rfl
    rw [hL] at hq
    injection hq with hp hps
    subst hp
    subst hps
    rw [hca]
    norm_num [pyMaxBySnd]

/-- Witness for C5: the universally quantified part instantiated at the
pre-seeded scenario (the concrete part of the theorem is already
closed). -/
theorem c5_witness :
    (¬ rngHalf.q rngHalf.k < cfgEps0.epsilon) ∧
    sdC5.cycle_phase = "menstrual" ∧
    6 ≤ sdC5.pain_level ∧
    ∃ i, i < actionsList.length ∧
      (choose_action "u1" cfgEps0 sdC5 dbC5 rngHalf).1 =
        actionsList.getD i Action.stretch_prompt ∧
      (∀ j, j < actionsList.length →
        (getQList "u1" (dumpsState sdC5) actionsList dbC5
            { rngHalf with k := rngHalf.k + 1 }).1.getD j 0 +
          painBoost (actionsList.getD j Action.stretch_prompt) ≤
        (getQList "u1" (dumpsState sdC5) actionsList dbC5
            { rngHalf with k := rngHalf.k + 1 }).1.getD i 0 +
          painBoost (actionsList.getD i Action.stretch_prompt)) ∧
      (∀ j, j < i →
        (getQList "u1" (dumpsState sdC5) actionsList dbC5
            { rngHalf with k := rngHalf.k + 1 }).1.getD j 0 +
          painBoost (actionsList.getD j Action.stretch_prompt) <
        (getQList "u1" (dumpsState sdC5) actionsList dbC5
            { rngHalf with k := rngHalf.k + 1 }).1.getD i 0 +
          painBoost (actionsList.getD i Action.stretch_prompt)) := by
  have hexp : ¬ rngHalf.q rngHalf.k < cfgEps0.epsilon := by
    norm_num [rngHalf, cfgEps0]
  exact ⟨hexp, rfl, by norm_num [sdC5],
    c5_exploit_highpain_argmax.1 "u1" cfgEps0 sdC5 dbC5 rngHalf hexp rfl
      (by norm_num [sdC5])⟩

/-- C10: the feedback endpoint only fails on an unknown id — whenever the
referenced notification exists (in particular when it already carries
feedback), the call succeeds with the freshly computed reward, silently
overwrites the stored `action_taken` and `effectiveness`, and
appends one more history record (the learning update ran again). -/
theorem c10_repeated_feedback_overwrites (fb : NotificationFeedback)
    (hour : Nat) (db : DB) (r : RState) (n : NotifRow)
    (h : db.notifications.find? (notifMatch fb.notification_id) = some n) :
    (process_notification_feedback fb hour db r).1 =
      Except.ok (reward_function n.user_id fb db) ∧
    (process_notification_feedback fb hour db r).2.1.notifications.find?
        (notifMatch fb.notification_id) =
      some { n with action_taken := fb.action_taken,
                    effectiveness := fb.effectiveness } ∧
    (process_notification_feedback fb hour db r).2.1.q_history.length =
      db.q_history.length + 1 := by
  have hpf := process_feedback_of_some fb hour db r n h
  obtain ⟨-, hnotif, hhist⟩ :=
    update_q_value_tables n.user_id defaultAgentCfg n.state n.action
      (reward_function n.user_id fb
        { db with notifications :=
            (setNotifFeedback fb.notification_id fb.action_taken
              fb.effectiveness db.notifications) })
      (match get_current_state n.user_id hour
          { db with notifications :=
              (setNotifFeedback fb.notification_id fb.action_taken
                fb.effectiveness db.notifications) } with
       | some sd => dumpsState sd
       | none => n.state)
      fb.action_taken fb.effectiveness
      (some fb.next_day_energy) (some fb.next_day_mood)
      { db with notifications :=
          (setNotifFeedback fb.notification_id fb.action_taken
            fb.effectiveness db.notifications) }
      r
  refine ⟨?_, ?_, ?_⟩
  · rw [hpf]
    exact congrArg Except.ok (reward_function_congr rfl n.user_id fb)
  · rw [hpf]
    simp only
    rw [hnotif]
    simp only
    rw [find?_setNotifFeedback, h]
    rfl
  · rw [hpf]
    simp only
    rw [hhist]

/-- Witness for C10 at a notification that already carries feedback: the
second submission succeeds, overwrites, and appends to the history. -/
theorem c10_witness :
    dbC10.notifications.find? (notifMatch fbC3.notification_id) =
      some notifC10 ∧
    (process_notification_feedback fbC3 9 dbC10 rngHalf).1 =
      Except.ok (reward_function notifC10.user_id fbC3 dbC10) ∧
    (process_notification_feedback fbC3 9 dbC10 rngHalf).2.1.notifications.find?
        (notifMatch fbC3.notification_id) =
      some { notifC10 with action_taken := fbC3.action_taken,
                           effectiveness := fbC3.effectiveness } ∧
    (process_notification_feedback fbC3 9 dbC10 rngHalf).2.1.q_history.length =
      dbC10.q_history.length + 1 := by
  have h := c10_repeated_feedback_overwrites fbC3 9 dbC10 rngHalf notifC10 rfl
  exact ⟨rfl, h.1, h.2.1, h.2.2⟩

end FemmeFlow
